import Mathlib

/-!
Verification development for the ChampSim-style simulator core.
The definitions below are shallow embeddings of the C++ source under `src/`:
machine 64-bit integers are embedded as `Nat` with explicit reduction
modulo `2 ^ 64` where the machine arithmetic wraps, bit masks are embedded
arithmetically (`x &&& bitmask n` becomes `x % 2 ^ n`), and code that throws
exceptions is embedded in `Except String`.
-/

namespace ChampSimProof

/-! ## Address algebra (src/inc/address.h) -/

/-- A runtime bit extent `[lower, upper)` of a 64-bit word.
Embeds `champsim::dynamic_extent`; the bounds are runtime fields of the value. -/
structure dynamic_extent where
  upper : Nat
  lower : Nat
deriving DecidableEq

/-- Embeds `champsim::address_slice<champsim::dynamic_extent>` (address.h, lines 169-423):
a logical view of bits `[lower, upper)` of a 64-bit word, held right-aligned in `value`. -/
structure address_slice where
  extent : dynamic_extent
  value : Nat
deriving DecidableEq

/-- Modelled from the spec: `util/bits.h` is not under src/. `champsim::bitmask n`
is the mask of the low `n` bits, so `x &&& bitmask n` is `x % 2 ^ n`. -/
def maskLow (x n : Nat) : Nat := x % 2 ^ n

/-- Modelled from the spec: `util/bits.h` is not under src/. `bitmask (u, l)` is the
mask of bits `[l, u)`, so `(x &&& bitmask (u, l)) >>> l` is `x / 2 ^ l % 2 ^ (u - l)`. -/
def maskRangeShifted (x u l : Nat) : Nat := x / 2 ^ l % 2 ^ (u - l)

/-- Constructor from an extent and a raw integer (address.h, lines 240-244):
`value = val & bitmask(ext.upper - ext.lower)`. -/
def address_slice.ofRaw (ext : dynamic_extent) (val : Nat) : address_slice :=
  ⟨ext, maskLow val (ext.upper - ext.lower)⟩

/-- Conversion constructor from a slice of any other extent (address.h, lines 228-233):
`value = ((val.value << val.lower_extent()) & bitmask(ext.upper, ext.lower)) >> ext.lower`,
the 64-bit shift wrapping modulo `2 ^ 64`. -/
def address_slice.convert (ext : dynamic_extent) (v : address_slice) : address_slice :=
  ⟨ext, maskRangeShifted (v.value * 2 ^ v.extent.lower % 2 ^ 64) ext.upper ext.lower⟩

/-- `operator+=` (address.h, lines 321-326): add the (signed, two's-complement cast)
delta with 64-bit wraparound, then mask back into the extent width. -/
def address_slice.addAssign (s : address_slice) (delta : Int) : address_slice :=
  ⟨s.extent, maskLow (((s.value : Int) + delta).emod (2 ^ 64)).toNat
    (s.extent.upper - s.extent.lower)⟩

/-- `operator-=` (address.h, line 335): delegates to `operator+=` with the negated delta. -/
def address_slice.subAssign (s : address_slice) (delta : Int) : address_slice :=
  s.addAssign (-delta)

/-- Pre/post `operator++` (address.h, lines 338-343): the stored result of `+= 1`. -/
def address_slice.incr (s : address_slice) : address_slice := s.addAssign 1

/-- Pre/post `operator--` (address.h, lines 345-350): the stored result of `-= 1`. -/
def address_slice.decr (s : address_slice) : address_slice := s.subAssign 1

/-- The representation invariant claimed by the spec: the stored underlying value has no
bits outside the extent width, i.e. `value < 2 ^ (upper - lower)`. -/
def slice_in_bounds (s : address_slice) : Prop :=
  s.value < 2 ^ (s.extent.upper - s.extent.lower)

/-! ### Comparison operators (address.h, lines 265-319), embedded in `Except` -/

/-- `operator==` (address.h, lines 270-277): checks the upper bound, then the lower
bound, throwing `std::invalid_argument` on mismatch, then compares values. -/
def address_slice.eqOp (a b : address_slice) : Except String Bool :=
  if a.extent.upper ≠ b.extent.upper then .error "Upper bounds do not match"
  else if a.extent.lower ≠ b.extent.lower then .error "Lower bounds do not match"
  else .ok (a.value == b.value)

/-- `operator<` (address.h, lines 284-291): same extent checks, then value order. -/
def address_slice.ltOp (a b : address_slice) : Except String Bool :=
  if a.extent.upper ≠ b.extent.upper then .error "Upper bounds do not match"
  else if a.extent.lower ≠ b.extent.lower then .error "Lower bounds do not match"
  else .ok (decide (a.value < b.value))

/-- `operator!=` (address.h, line 298): `!(*this == other)`; propagates the exception. -/
def address_slice.neOp (a b : address_slice) : Except String Bool :=
  (a.eqOp b).map (fun r => !r)

/-- `operator<=` (address.h, line 305): `*this < other || *this == other` with C++
short-circuit evaluation. -/
def address_slice.leOp (a b : address_slice) : Except String Bool :=
  match a.ltOp b with
  | .error e => .error e
  | .ok true => .ok true
  | .ok false => a.eqOp b

/-- `operator>` (address.h, line 312): `!(value <= other.value)` — the raw stored values
are compared directly; no extent check is performed. -/
def address_slice.gtOp (a b : address_slice) : Except String Bool :=
  .ok (!(decide (a.value ≤ b.value)))

/-- `operator>=` (address.h, line 319): `*this > other || *this == other` with C++
short-circuit evaluation. -/
def address_slice.geOp (a b : address_slice) : Except String Bool :=
  match a.gtOp b with
  | .error e => .error e
  | .ok true => .ok true
  | .ok false => a.eqOp b

/-- `champsim::offset` (address.h, lines 430-441): absolute difference of the stored
values; throws `std::overflow_error` when it exceeds the signed 64-bit maximum,
otherwise returns the signed difference `other - base`. -/
def champsim_offset (base other : address_slice) : Except String Int :=
  let absDiff : Nat :=
    if base.value > other.value then base.value - other.value else other.value - base.value
  if absDiff > 2 ^ 63 - 1 then
    .error "The offset cannot be represented in the difference type."
  else if base.value > other.value then .ok (-(absDiff : Int)) else .ok (absDiff : Int)

/-! ### Splicing (address.h, lines 460-503) -/

/-- Modelled from the spec: `extent.h` is not under src/. The union of two extents is
the smallest extent containing both. -/
def extent_union (e1 e2 : dynamic_extent) : dynamic_extent :=
  ⟨max e1.upper e2.upper, min e1.lower e2.lower⟩

/-- Modelled from the spec: `util/bits.h` is not under src/. `splice_bits(a, b, u, l)`
replaces bits `[l, u)` of `a` with the corresponding bits of `b`
(`(a & ~bitmask(u,l)) | (b & bitmask(u,l))`), embedded arithmetically. -/
def spliceBits (a b u l : Nat) : Nat :=
  (a - a / 2 ^ l % 2 ^ (u - l) * 2 ^ l) + b / 2 ^ l % 2 ^ (u - l) * 2 ^ l

/-- `detail::splice_fold_wrapper::operator+` (address.h, lines 474-485): shift both
underlying values left to the unioned extent (64-bit wraparound) and splice the second
argument's bit range over the first. Later arguments win on overlap. -/
def splice_fold_add (x y : address_slice) : address_slice :=
  let re := extent_union x.extent y.extent
  ⟨re, spliceBits (x.value * 2 ^ (x.extent.lower - re.lower) % 2 ^ 64)
      (y.value * 2 ^ (y.extent.lower - re.lower) % 2 ^ 64)
      (y.extent.upper - re.lower) (y.extent.lower - re.lower)⟩

/-- `champsim::splice` (address.h, lines 499-503) for two slices: fold the wrappers
and read back the resulting slice. -/
def splice2 (a b : address_slice) : address_slice := splice_fold_add a b

/-- `LOG2_PAGE_SIZE`. Modelled from the spec: `champsim.h` is not under src/; the
worked examples in address.h (lines 84-104) fix `LOG2_PAGE_SIZE = 12`. -/
def LOG2_PAGE_SIZE : Nat := 12

/-- `champsim::page_number{x}`: the raw-value constructor (address.h, line 213) for the
extent `[64, LOG2_PAGE_SIZE)`; no shifting or masking is performed. -/
def page_number (x : Nat) : address_slice := ⟨⟨64, LOG2_PAGE_SIZE⟩, x⟩

/-- `champsim::page_offset{y}`: the raw-value constructor for the extent
`[LOG2_PAGE_SIZE, 0)`; no shifting or masking is performed. -/
def page_offset (y : Nat) : address_slice := ⟨⟨LOG2_PAGE_SIZE, 0⟩, y⟩

/-- `champsim::address{v}`: the raw-value constructor for the full extent `[64, 0)`. -/
def full_address (v : Nat) : address_slice := ⟨⟨64, 0⟩, v⟩

/-- C1: the stored underlying value of an `address_slice` is strictly below
`2 ^ (upper - lower)` after construction from an extent and a raw integer, after
conversion from a slice of any other extent, and after each of the arithmetic
operators `+=`, `-=`, `++`, `--`, which mask the result back into the extent width. -/
theorem address_slice_value_in_extent_width (ext : dynamic_extent) (val : Nat)
    (v s : address_slice) (d : Int) :
    slice_in_bounds (address_slice.ofRaw ext val) ∧
    slice_in_bounds (address_slice.convert ext v) ∧
    slice_in_bounds (s.addAssign d) ∧
    slice_in_bounds (s.subAssign d) ∧
    slice_in_bounds s.incr ∧
    slice_in_bounds s.decr := by
  refine ⟨?_, ?_, ?_, ?_, ?_, ?_⟩ <;>
    · simp only [slice_in_bounds, address_slice.ofRaw, address_slice.convert,
        address_slice.addAssign, address_slice.subAssign, address_slice.incr,
        address_slice.decr, maskLow, maskRangeShifted]
      exact Nat.mod_lt _ (pow_pos (by norm_num) _)

/-- C3: splicing the page number of `x` with the page offset of `y` yields the full
address `(x << LOG2_PAGE_SIZE) | (y & (PAGE_SIZE - 1))`, with the 64-bit shift
wrapping modulo `2 ^ 64`. -/
theorem splice_page_number_page_offset (x y : Nat) :
    splice2 (page_number x) (page_offset y) =
      full_address (x * 2 ^ LOG2_PAGE_SIZE % 2 ^ 64 ||| y % 2 ^ LOG2_PAGE_SIZE) := by
  simp only [splice2, splice_fold_add, extent_union, page_number, page_offset,
    full_address, spliceBits, LOG2_PAGE_SIZE]
  norm_num
  have hA : x * 4096 % 18446744073709551616 = 2 ^ 12 * (x % 2 ^ 52) := by
    have h1 : (18446744073709551616 : Nat) = 2 ^ 12 * 2 ^ 52 := by norm_num
    have h2 : x * 4096 = 2 ^ 12 * x := by ring
    rw [h1, h2, Nat.mul_mod_mul_left]
  have hB : y % 4096 = y % 2 ^ 12 := by norm_num
  rw [hA, hB]
  exact Nat.mul_add_lt_is_or (Nat.mod_lt _ (by norm_num)) _

/-- C4 (exercising the code at a failing input): for dynamic slices with differing
extents, `==`, `!=`, `<` and `<=` throw `std::invalid_argument`, but `operator>`
compares the raw stored values without any extent check and returns a value, and
`operator>=` short-circuits on it — contradicting the claim and the operators' own
documentation comments. -/
theorem comparison_mismatched_extents_eval :
    (address_slice.gtOp ⟨⟨8, 0⟩, 5⟩ ⟨⟨16, 8⟩, 3⟩ = .ok true) ∧
    (address_slice.geOp ⟨⟨8, 0⟩, 5⟩ ⟨⟨16, 8⟩, 3⟩ = .ok true) ∧
    (address_slice.eqOp ⟨⟨8, 0⟩, 5⟩ ⟨⟨16, 8⟩, 3⟩ = .error "Upper bounds do not match") ∧
    (address_slice.neOp ⟨⟨8, 0⟩, 5⟩ ⟨⟨16, 8⟩, 3⟩ = .error "Upper bounds do not match") ∧
    (address_slice.ltOp ⟨⟨8, 0⟩, 5⟩ ⟨⟨16, 8⟩, 3⟩ = .error "Upper bounds do not match") ∧
    (address_slice.leOp ⟨⟨8, 0⟩, 5⟩ ⟨⟨16, 8⟩, 3⟩ = .error "Upper bounds do not match") :=
  ⟨rfl, rfl, rfl, rfl, rfl, rfl⟩

/-- C8: for two slices of the same extent, `champsim::offset` returns the exact signed
difference `other - base` whenever its absolute value fits in the signed 64-bit
difference type, and throws `std::overflow_error` otherwise. -/
theorem offset_exact_or_overflow (a b : address_slice) (hext : a.extent = b.extent)
    (ha : a.value < 2 ^ 64) (hb : b.value < 2 ^ 64) :
    champsim_offset a b =
      if ((b.value : Int) - (a.value : Int)).natAbs ≤ 2 ^ 63 - 1 then
        .ok ((b.value : Int) - (a.value : Int))
      else
        .error "The offset cannot be represented in the difference type." := by
  simp only [champsim_offset]
  split_ifs <;> first
    | rfl
    | (exfalso; omega)
    | (congr 1; omega)

/-- C8 witness: the theorem applied at the concrete slices `[12,0):100` and `[12,0):7`. -/
theorem offset_exact_or_overflow_witness :
    champsim_offset ⟨⟨12, 0⟩, 100⟩ ⟨⟨12, 0⟩, 7⟩ =
      if (((7 : Nat) : Int) - ((100 : Nat) : Int)).natAbs ≤ 2 ^ 63 - 1 then
        .ok (((7 : Nat) : Int) - ((100 : Nat) : Int))
      else
        .error "The offset cannot be represented in the difference type." :=
  offset_exact_or_overflow ⟨⟨12, 0⟩, 100⟩ ⟨⟨12, 0⟩, 7⟩ rfl (by norm_num) (by norm_num)

/-! ## Dependency-list merging (src/inc/block.h, lines 59-68) -/

/-- `std::inplace_merge` on two individually sorted ranges: a stable merge in which an
element of the second range is taken first only when it is strictly smaller. -/
def mergeS : List Nat → List Nat → List Nat
  | [], ys => ys
  | x :: xs, [] => x :: xs
  | x :: xs, y :: ys => if x ≤ y then x :: mergeS xs (y :: ys) else y :: mergeS (x :: xs) ys
termination_by xs ys => xs.length + ys.length

/-- `std::unique` followed by `erase`: drop every element equal to its predecessor,
keeping the first element of each run. -/
def uniqueAdj : List Nat → List Nat
  | [] => []
  | [x] => [x]
  | x :: y :: rest => if x = y then uniqueAdj (x :: rest) else x :: uniqueAdj (y :: rest)
termination_by l => l.length

/-- `packet_dep_merge` (block.h, lines 59-68): append `src` to `dest`, in-place merge
at the old end, then erase the `unique` tail. -/
def packet_dep_merge (dest src : List Nat) : List Nat := uniqueAdj (mergeS dest src)

theorem mem_mergeS (a : Nat) : ∀ xs ys : List Nat, a ∈ mergeS xs ys ↔ a ∈ xs ∨ a ∈ ys := by
  intro xs ys
  induction xs, ys using mergeS.induct with
  | case1 ys => simp [mergeS]
  | case2 x xs => simp [mergeS]
  | case3 x xs y ys h ih =>
    simp only [mergeS]
    rw [if_pos h]
    simp only [List.mem_cons] at ih ⊢
    rw [ih]
    tauto
  | case4 x xs y ys h ih =>
    simp only [mergeS]
    rw [if_neg h]
    simp only [List.mem_cons] at ih ⊢
    rw [ih]
    tauto

theorem sorted_mergeS : ∀ xs ys : List Nat, xs.Sorted (· ≤ ·) → ys.Sorted (· ≤ ·) →
    (mergeS xs ys).Sorted (· ≤ ·) := by
  intro xs ys
  induction xs, ys using mergeS.induct with
  | case1 ys => intro _ hy; simpa only [mergeS] using hy
  | case2 x xs => intro hx _; simpa only [mergeS] using hx
  | case3 x xs y ys h ih =>
    intro hx hy
    simp only [mergeS]
    rw [if_pos h]
    rw [List.sorted_cons] at hx ⊢
    refine ⟨?_, ih hx.2 hy⟩
    intro b hb
    rcases (mem_mergeS b xs (y :: ys)).1 hb with h1 | h1
    · exact hx.1 b h1
    · rcases List.mem_cons.1 h1 with rfl | h2
      · exact h
      · exact le_trans h ((List.sorted_cons.1 hy).1 b h2)
  | case4 x xs y ys h ih =>
    intro hx hy
    simp only [mergeS]
    rw [if_neg h]
    rw [List.sorted_cons] at hy ⊢
    refine ⟨?_, ih hx hy.2⟩
    intro b hb
    have hyx : y ≤ x := le_of_not_le h
    rcases (mem_mergeS b (x :: xs) ys).1 hb with h1 | h1
    · rcases List.mem_cons.1 h1 with rfl | h2
      · exact hyx
      · exact le_trans hyx ((List.sorted_cons.1 hx).1 b h2)
    · exact hy.1 b h1

theorem mem_uniqueAdj (a : Nat) : ∀ l : List Nat, a ∈ uniqueAdj l ↔ a ∈ l := by
  intro l
  induction l using uniqueAdj.induct with
  | case1 => simp [uniqueAdj]
  | case2 x => simp [uniqueAdj]
  | case3 y rest ih =>
    simp only [uniqueAdj, if_true]
    simp only [List.mem_cons] at ih ⊢
    rw [ih]
    tauto
  | case4 x y rest hne ih =>
    simp only [uniqueAdj]
    rw [if_neg hne]
    simp only [List.mem_cons] at ih ⊢
    rw [ih]

theorem sorted_lt_uniqueAdj : ∀ l : List Nat, l.Sorted (· ≤ ·) →
    (uniqueAdj l).Sorted (· < ·) := by
  intro l
  induction l using uniqueAdj.induct with
  | case1 => intro _; simp only [uniqueAdj]; exact List.sorted_nil
  | case2 x => intro _; simp only [uniqueAdj]; exact List.sorted_singleton x
  | case3 y rest ih =>
    intro hs
    simp only [uniqueAdj, if_true]
    exact ih (List.sorted_cons.1 hs).2
  | case4 x y rest hne ih =>
    intro hs
    simp only [uniqueAdj]
    rw [if_neg hne]
    rw [List.sorted_cons] at hs
    have hy := hs.2
    rw [List.sorted_cons]
    refine ⟨?_, ih hy⟩
    intro b hb
    have hb' : b ∈ y :: rest := (mem_uniqueAdj b (y :: rest)).1 hb
    have hxy : x < y := lt_of_le_of_ne (hs.1 y (List.mem_cons_self y rest)) hne
    rcases List.mem_cons.1 hb' with rfl | h2
    · exact hxy
    · exact lt_of_lt_of_le hxy ((List.sorted_cons.1 hy).1 b h2)

/-- C6: when `dest` and `src` are each individually sorted, `packet_dep_merge` leaves
the destination sorted, with no element repeated, and containing exactly the set
union of the two inputs. -/
theorem packet_dep_merge_sorted_union (dest src : List Nat)
    (hd : dest.Sorted (· ≤ ·)) (hs : src.Sorted (· ≤ ·)) :
    (packet_dep_merge dest src).Sorted (· ≤ ·) ∧
    (packet_dep_merge dest src).Nodup ∧
    ∀ a, a ∈ packet_dep_merge dest src ↔ a ∈ dest ∨ a ∈ src := by
  have hm := sorted_mergeS dest src hd hs
  have hlt := sorted_lt_uniqueAdj _ hm
  refine ⟨hlt.imp (fun h => le_of_lt h), hlt.imp (fun h => ne_of_lt h), ?_⟩
  intro a
  exact (mem_uniqueAdj a _).trans (mem_mergeS a dest src)

/-- C6 witness: the theorem applied at the concrete sorted lists `[1, 3, 5]` and
`[2, 3, 6]`. -/
theorem packet_dep_merge_sorted_union_witness :
    (packet_dep_merge [1, 3, 5] [2, 3, 6]).Sorted (· ≤ ·) ∧
    (packet_dep_merge [1, 3, 5] [2, 3, 6]).Nodup ∧
    ∀ a, a ∈ packet_dep_merge [1, 3, 5] [2, 3, 6] ↔ a ∈ [1, 3, 5] ∨ a ∈ [2, 3, 6] :=
  packet_dep_merge_sorted_union [1, 3, 5] [2, 3, 6] (by decide) (by decide)

/-! ## LRU replacement policy update (src/replacement/lru/lru.cc, lines 18-23) -/

/-- The cache access types. Modelled from the spec: `champsim.h` is not under src/;
the spec lists the access types LOAD, RFO, PREFETCH, WRITE, TRANSLATION. -/
inductive access_typ
  | LOAD
  | RFO
  | PREFETCH
  | WRITE
  | TRANSLATION
deriving DecidableEq

/-- The mutable state of the `lru` module: the flat `last_used_cycles` table (indexed
by `set * NUM_WAY + way`) and the module's private `cycle` counter. -/
structure lru_state where
  last_used_cycles : List Nat
  cycle : Nat
deriving DecidableEq

/-- `lru::update_replacement_state` (lru.cc, lines 18-23): unless the access is a
writeback hit (`hit && type == WRITE`), write the current cycle counter into the
entry for `(set, way)` and post-increment the counter. -/
def lru_update_replacement_state (NUM_WAY : Nat) (st : lru_state) (set way : Nat)
    (_full_addr _ip _victim_addr : Nat) (typ : access_typ) (hit : Bool) : lru_state :=
  if hit = false ∨ typ ≠ access_typ.WRITE then
    { last_used_cycles := st.last_used_cycles.set (set * NUM_WAY + way) st.cycle,
      cycle := st.cycle + 1 }
  else st

/-- C9 counterexample: a non-writeback access (a LOAD hit) can leave the
`last_used_cycles` table entirely unchanged, when the written entry already holds the
current cycle counter — so "table unchanged exactly when writeback hit" fails in the
only-if direction. -/
theorem lru_update_table_unchanged_not_iff :
    (lru_update_replacement_state 1 ⟨[7], 7⟩ 0 0 0 0 0 access_typ.LOAD true).last_used_cycles
      = (⟨[7], 7⟩ : lru_state).last_used_cycles ∧
    ¬(true = true ∧ access_typ.LOAD = access_typ.WRITE) := by
  decide

/-- C9 (amended): the whole replacement state (table and counter) is unchanged exactly
when the access is a writeback hit; in every other case the entry for `(set, way)` is
written with the current cycle counter, all other entries are unchanged, and the
counter increments — the table's value can coincide with its old value only when that
entry already held the counter. -/
theorem lru_update_replacement_state_effect (NUM_WAY : Nat) (st : lru_state)
    (set way fa ip va : Nat) (typ : access_typ) (hit : Bool)
    (hidx : set * NUM_WAY + way < st.last_used_cycles.length) :
    (lru_update_replacement_state NUM_WAY st set way fa ip va typ hit = st
      ↔ (hit = true ∧ typ = access_typ.WRITE)) ∧
    ((hit = true ∧ typ = access_typ.WRITE) →
      (lru_update_replacement_state NUM_WAY st set way fa ip va typ hit).last_used_cycles
        = st.last_used_cycles) ∧
    (¬(hit = true ∧ typ = access_typ.WRITE) →
      (lru_update_replacement_state NUM_WAY st set way fa ip va typ hit).last_used_cycles
          = st.last_used_cycles.set (set * NUM_WAY + way) st.cycle ∧
        (lru_update_replacement_state NUM_WAY st set way fa ip va typ hit).last_used_cycles[set * NUM_WAY + way]?
          = some st.cycle ∧
        (∀ j, j ≠ set * NUM_WAY + way →
          (lru_update_replacement_state NUM_WAY st set way fa ip va typ hit).last_used_cycles[j]?
            = st.last_used_cycles[j]?) ∧
        (lru_update_replacement_state NUM_WAY st set way fa ip va typ hit).cycle
          = st.cycle + 1) := by
  by_cases hwb : hit = true ∧ typ = access_typ.WRITE
  · have hcond : ¬(hit = false ∨ typ ≠ access_typ.WRITE) := by
      rcases hwb with ⟨h1, h2⟩
      simp [h1, h2]
    constructor
    · simp [lru_update_replacement_state, hcond, hwb]
    · refine ⟨fun _ => ?_, fun hc => absurd hwb hc⟩
      simp [lru_update_replacement_state, hcond]
  · have hcond : hit = false ∨ typ ≠ access_typ.WRITE := by
      rcases Bool.eq_false_or_eq_true hit with h | h
      · right
        intro hw
        exact hwb ⟨h, hw⟩
      · left
        exact h
    constructor
    · constructor
      · intro heq
        exfalso
        have : (lru_update_replacement_state NUM_WAY st set way fa ip va typ hit).cycle
            = st.cycle + 1 := by
          simp [lru_update_replacement_state, hcond]
        rw [heq] at this
        omega
      · intro hc
        exact absurd hc hwb
    · refine ⟨fun hc => absurd hc hwb, fun _ => ?_⟩
      refine ⟨by simp [lru_update_replacement_state, hcond], ?_, ?_, ?_⟩
      · simp only [lru_update_replacement_state, if_pos hcond]
        exact List.getElem?_set_self hidx
      · intro j hj
        simp only [lru_update_replacement_state, if_pos hcond]
        exact List.getElem?_set_ne (Ne.symm hj)
      · simp [lru_update_replacement_state, hcond]

/-- C9 witness: the amended theorem applied at a concrete two-way state for a
writeback hit, the state-unchanged iff extracted. -/
theorem lru_update_replacement_state_effect_witness :
    lru_update_replacement_state 2 ⟨[4, 9, 1, 6], 12⟩ 1 0 0 0 0 access_typ.WRITE true
      = (⟨[4, 9, 1, 6], 12⟩ : lru_state) ↔ (true = true ∧ access_typ.WRITE = access_typ.WRITE) :=
  (lru_update_replacement_state_effect 2 ⟨[4, 9, 1, 6], 12⟩ 1 0 0 0 0
      access_typ.WRITE true (by decide)).1

/-! ## Module hook detection (src/inc/modules_detect.h) -/

/-- `champsim::modules::detect::prefetcher::has_cache_operate` (modules_detect.h,
lines 131-141): returns 3, 2, 1 by fixed priority among the detected
`prefetcher_cache_operate` signature variants, or 0 when none is present. -/
def has_cache_operate (v1 v2 v3 : Bool) : Nat :=
  if v3 then 3 else if v2 then 2 else if v1 then 1 else 0

/-- `replacement::has_find_victim` (modules_detect.h, lines 205-213): prefers the
`access_type` variant (2) over the legacy `uint32_t` variant (1); 0 when absent. -/
def has_find_victim (v1 v2 : Bool) : Nat :=
  if v2 then 2 else if v1 then 1 else 0

/-- `replacement::has_update_state` (modules_detect.h, lines 215-223): prefers the
`access_type` variant (2) over the legacy variant (1); 0 when absent. -/
def has_update_state (v1 v2 : Bool) : Nat :=
  if v2 then 2 else if v1 then 1 else 0

/-- `branch_predictor::has_predict_branch` (modules_detect.h, lines 40-48): prefers
variant 1 over variant 2; 0 when absent. -/
def has_predict_branch (v1 v2 : Bool) : Nat :=
  if v1 then 1 else if v2 then 2 else 0

/-- Whether variant number `n` is among the variants the module actually implements
(three-variant hooks). -/
def variantPresent3 (n : Nat) (v1 v2 v3 : Bool) : Bool :=
  match n with
  | 1 => v1
  | 2 => v2
  | 3 => v3
  | _ => false

/-- The number of implemented signature variants of a three-variant hook. -/
def variantCount3 (v1 v2 v3 : Bool) : Nat :=
  (if v1 then 1 else 0) + (if v2 then 1 else 0) + (if v3 then 1 else 0)

/-- C7 counterexample: a module implementing every variant of
`prefetcher_cache_operate`, of `find_victim`/`update_replacement_state`, and of
`predict_branch` is not rejected — each detector returns an ordinary variant number
(there is no error outcome in the detection result), choosing by fixed priority. -/
theorem modules_detect_multi_variant_not_rejected :
    has_cache_operate true true true = 3 ∧
    has_find_victim true true = 2 ∧
    has_update_state true true = 2 ∧
    has_predict_branch true true = 1 ∧
    has_cache_operate true true true ≠ 0 ∧
    has_find_victim true true ≠ 0 ∧
    has_predict_branch true true ≠ 0 := by
  decide

/-- C7 (amended): when a module implements more than one variant of a hook, the
detection does not reject the configuration: it returns the number of a variant that
is actually present, chosen by fixed priority (newest first for
`prefetcher_cache_operate` and the replacement hooks). -/
theorem modules_detect_priority_selection (p1 p2 p3 r1 r2 : Bool)
    (hp : 2 ≤ variantCount3 p1 p2 p3) (hr : r1 = true ∧ r2 = true) :
    variantPresent3 (has_cache_operate p1 p2 p3) p1 p2 p3 = true ∧
    has_cache_operate p1 p2 p3 ≠ 0 ∧
    has_find_victim r1 r2 = 2 ∧
    has_update_state r1 r2 = 2 := by
  revert hp hr
  revert p1 p2 p3 r1 r2
  decide

/-- C7 witness: the amended theorem applied to a module implementing all variants. -/
theorem modules_detect_priority_selection_witness :
    variantPresent3 (has_cache_operate true true true) true true true = true ∧
    has_cache_operate true true true ≠ 0 ∧
    has_find_victim true true = 2 ∧
    has_update_state true true = 2 :=
  modules_detect_priority_selection true true true true true (by decide) (by decide)

/-! ## Trace instructions (src/inc/instruction.h) -/

/-- `input_instr` (instruction.h, lines 29-42): a standard-format trace record. -/
structure input_instr where
  ip : Nat
  is_branch : Bool
  branch_taken : Bool
  destination_registers : List Nat
  source_registers : List Nat
  destination_memory : List Nat
  source_memory : List Nat

/-- `cloudsuite_instr` (instruction.h, lines 44-59): a cloudsuite-format trace record;
`asid0` and `asid1` are the two `uint8_t` entries of its `asid` array. -/
structure cloudsuite_instr where
  ip : Nat
  is_branch : Bool
  branch_taken : Bool
  destination_registers : List Nat
  source_registers : List Nat
  destination_memory : List Nat
  source_memory : List Nat
  asid0 : Nat
  asid1 : Nat

/-- `ooo_model_instr` (instruction.h, lines 61-106): only the fields the constructors
initialize from the trace record. -/
structure ooo_model_instr where
  ip : Nat
  is_branch : Bool
  branch_taken : Bool
  asid : Nat
  destination_registers : List Nat
  source_registers : List Nat
  destination_memory : List Nat
  source_memory : List Nat

/-- The private delegated constructor (instruction.h, lines 94-101): copy the fields,
dropping zero register ids and zero memory addresses (`std::remove_copy` of 0). -/
def ooo_ctor (ip : Nat) (isb bt : Bool) (dr sr dm sm : List Nat) (asid : Nat) :
    ooo_model_instr :=
  { ip := ip, is_branch := isb, branch_taken := bt, asid := asid,
    destination_registers := dr.filter (fun r => r != 0),
    source_registers := sr.filter (fun r => r != 0),
    destination_memory := dm.filter (fun m => m != 0),
    source_memory := sm.filter (fun m => m != 0) }

/-- Constructor from a standard trace record (instruction.h, line 104): the asid is
`std::numeric_limits<uint16_t>::max() = 65535`. -/
def ooo_of_input (i : input_instr) : ooo_model_instr :=
  ooo_ctor i.ip i.is_branch i.branch_taken i.destination_registers i.source_registers
    i.destination_memory i.source_memory 65535

/-- Constructor from a cloudsuite trace record (instruction.h, line 105): the asid is
`(uint16_t(asid[1]) << 8) + asid[0]` in 16-bit arithmetic. -/
def ooo_of_cloudsuite (c : cloudsuite_instr) : ooo_model_instr :=
  ooo_ctor c.ip c.is_branch c.branch_taken c.destination_registers c.source_registers
    c.destination_memory c.source_memory ((c.asid1 * 256 % 65536 + c.asid0) % 65536)

/-- C10: a cloudsuite-constructed instruction carries
`asid = asid[1] * 256 + asid[0]` (the second trace byte is the high byte), while a
standard-format instruction always carries the sentinel asid 65535. -/
theorem ooo_model_instr_asid (c : cloudsuite_instr) (i : input_instr)
    (h0 : c.asid0 < 256) (h1 : c.asid1 < 256) :
    (ooo_of_cloudsuite c).asid = c.asid1 * 256 + c.asid0 ∧
    (ooo_of_input i).asid = 65535 := by
  constructor
  · simp only [ooo_of_cloudsuite, ooo_ctor]
    omega
  · rfl

/-- C10 witness: the theorem applied at a concrete cloudsuite record with asid bytes
`{0x34, 0x12}` and an arbitrary concrete standard record. -/
theorem ooo_model_instr_asid_witness :
    (ooo_of_cloudsuite ⟨0, false, false, [], [], [], [], 0x34, 0x12⟩).asid
        = 0x12 * 256 + 0x34 ∧
    (ooo_of_input ⟨0, false, false, [], [], [], []⟩).asid = 65535 :=
  ooo_model_instr_asid ⟨0, false, false, [], [], [], [], 0x34, 0x12⟩
    ⟨0, false, false, [], [], [], []⟩ (by decide) (by decide)

/-! ## DRAM FR-FCFS scheduling (src/test/cpp/src/701-dram-scheduler.cc)

Modelled from the spec: `dram_controller.h`/`.cc` are not under src/ (only test 701
is).  Section 4.3 of the spec describes FR-FCFS scheduling with per-bank
`{current_row, busy}` state: an arrived request can be scheduled only when its bank is
idle; among such requests the oldest arrival wins (deterministic tie-break on queue
index); serving a request whose row matches the bank's open row costs `t_CAS`, while a
closed or mismatched row charges `t_RP + t_RCD` for precharge and activate before CAS.
The test's constructor parameters 12.5 ns, 12.5 ns, 20 ns at 3200 MT/s (0.625 ns per
DRAM cycle) give `t_RP = t_RCD = 20` and `t_CAS = 32` cycles, and the test's own
comment attributes the reordering to bank allocation ("we can allocate requests to 6
additional banks before the first bank is done").  One request is scheduled per cycle,
matching how the test observes one newly set `scheduled` flag per `operate`. -/

/-- Arrival cycles of the 21 LOAD requests loaded into the read queue (test 701). -/
def arrivalCycles : List Nat := [3, 4, 2, 0, 1, 5, 6, 7, 8, 9, 10, 11, 12, 13, 14, 15, 16, 17, 20, 18, 19]

/-- Bank index of each request (test 701). -/
def bankAccess : List Nat := [0, 0, 0, 1, 1, 1, 2, 2, 2, 3, 3, 3, 4, 4, 4, 5, 5, 5, 6, 6, 6]

/-- Row index of each request (test 701: rows alternate 0, 1, ...). -/
def rowAccess : List Nat := [0, 1, 0, 1, 0, 1, 0, 1, 0, 1, 0, 1, 0, 1, 0, 1, 0, 1, 0, 1, 0]

/-- CAS latency in DRAM cycles (20 ns at 0.625 ns per cycle). -/
def tCAS : Nat := 32

/-- Precharge latency in DRAM cycles (12.5 ns at 0.625 ns per cycle). -/
def tRP : Nat := 20

/-- Row activation latency in DRAM cycles (12.5 ns at 0.625 ns per cycle). -/
def tRCD : Nat := 20

/-- Number of requests in the test stream. -/
def numReqs : Nat := 21

/-- Number of banks touched by the test stream. -/
def numBanks : Nat := 7

/-- Arrival cycle of request `i`. -/
def arr (i : Nat) : Nat := arrivalCycles.getD i 0

/-- Bank of request `i`. -/
def bnk (i : Nat) : Nat := bankAccess.getD i 0

/-- Row of request `i`. -/
def row (i : Nat) : Nat := rowAccess.getD i 0

/-- Per-bank scheduler state: the currently open row (none before the first activate)
and the cycle at which the in-flight request completes. -/
structure BankSt where
  openRow : Option Nat
  busyUntil : Nat
deriving DecidableEq

/-- Controller state: one `BankSt` per bank, and the request indices already marked
`scheduled`, in scheduling order. -/
structure SchedSt where
  banks : List BankSt
  order : List Nat
deriving DecidableEq

/-- Initial controller state: all rows closed, all banks idle, nothing scheduled. -/
def initSt : SchedSt := ⟨List.replicate numBanks ⟨none, 0⟩, []⟩

/-- The state of bank `b`. -/
def bankAt (st : SchedSt) (b : Nat) : BankSt := st.banks.getD b ⟨none, 0⟩

/-- A request is eligible at cycle `t` when it is not yet scheduled, has arrived, and
its bank is idle. -/
def eligible (st : SchedSt) (t i : Nat) : Bool :=
  decide (i ∉ st.order) && decide (arr i ≤ t) && decide ((bankAt st (bnk i)).busyUntil ≤ t)

/-- FR-FCFS selection at cycle `t`: the eligible request with the smallest arrival
cycle, ties broken by the lowest queue index. -/
def pick (st : SchedSt) (t : Nat) : Option Nat :=
  (List.range numReqs).foldl
    (fun acc i =>
      if eligible st t i then
        match acc with
        | none => some i
        | some j => if arr i < arr j then some i else some j
      else acc)
    none

/-- One controller cycle: schedule the selected request (if any) on its bank, opening
its row and occupying the bank for `t_CAS` on a row hit and `t_RP + t_RCD + t_CAS`
otherwise. -/
def dramStep (t : Nat) (st : SchedSt) : SchedSt :=
  match pick st t with
  | none => st
  | some i =>
    let b := bnk i
    let bs := bankAt st b
    let hit := bs.openRow == some (row i)
    let lat := if hit then tCAS else tRP + tRCD + tCAS
    { banks := st.banks.set b ⟨some (row i), t + lat⟩, order := st.order ++ [i] }

/-- Run the controller for `k` cycles starting at cycle `t0`. -/
def runFrom : Nat → SchedSt → Nat → SchedSt
  | _, st, 0 => st
  | t0, st, k + 1 => runFrom (t0 + 1) (dramStep t0 st) k

/-- The controller state after cycles `0, ..., n - 1` have been operated. -/
def stateAfter (n : Nat) : SchedSt := runFrom 0 initSt n

theorem runFrom_add (a : Nat) : ∀ (t0 : Nat) (st : SchedSt) (b : Nat),
    runFrom t0 st (a + b) = runFrom (t0 + a) (runFrom t0 st a) b := by
  induction a with
  | zero => intro t0 st b; simp [runFrom]
  | succ n ih =>
    intro t0 st b
    have h1 : n + 1 + b = (n + b) + 1 := by omega
    rw [h1]
    show runFrom (t0 + 1) (dramStep t0 st) (n + b) = _
    rw [ih]
    have h2 : t0 + 1 + n = t0 + (n + 1) := by omega
    rw [h2]
    rfl

set_option maxRecDepth 4000

/-- The controller state after 40 cycles (checkpoint used to stage the evaluation). -/
def st40 : SchedSt :=
  ⟨[⟨some 0, 74⟩, ⟨some 1, 72⟩, ⟨some 0, 78⟩, ⟨some 1, 81⟩, ⟨some 0, 84⟩, ⟨some 1, 87⟩,
      ⟨some 1, 90⟩],
    [3, 2, 6, 9, 12, 15, 19]⟩

/-- The controller state after 80 cycles. -/
def st80 : SchedSt :=
  ⟨[⟨some 0, 106⟩, ⟨some 0, 144⟩, ⟨some 1, 150⟩, ⟨some 1, 81⟩, ⟨some 0, 84⟩, ⟨some 1, 87⟩,
      ⟨some 1, 90⟩],
    [3, 2, 6, 9, 12, 15, 19, 4, 0, 7]⟩

/-- The controller state after 120 cycles. -/
def st120 : SchedSt :=
  ⟨[⟨some 1, 178⟩, ⟨some 0, 144⟩, ⟨some 1, 150⟩, ⟨some 0, 153⟩, ⟨some 1, 156⟩,
      ⟨some 0, 159⟩, ⟨some 0, 162⟩],
    [3, 2, 6, 9, 12, 15, 19, 4, 0, 7, 10, 13, 16, 20, 1]⟩

/-- The controller state after 160 cycles. -/
def st160 : SchedSt :=
  ⟨[⟨some 1, 178⟩, ⟨some 1, 216⟩, ⟨some 0, 222⟩, ⟨some 1, 225⟩, ⟨some 0, 228⟩,
      ⟨some 1, 231⟩, ⟨some 0, 162⟩],
    [3, 2, 6, 9, 12, 15, 19, 4, 0, 7, 10, 13, 16, 20, 1, 5, 8, 11, 14, 17]⟩

/-- The controller state after 200 cycles: all 21 requests scheduled. -/
def st200 : SchedSt :=
  ⟨[⟨some 1, 178⟩, ⟨some 1, 216⟩, ⟨some 0, 222⟩, ⟨some 1, 225⟩, ⟨some 0, 228⟩,
      ⟨some 1, 231⟩, ⟨some 0, 194⟩],
    [3, 2, 6, 9, 12, 15, 19, 4, 0, 7, 10, 13, 16, 20, 1, 5, 8, 11, 14, 17, 18]⟩

theorem runFrom_0_40 : runFrom 0 initSt 40 = st40 := by decide

theorem runFrom_40_80 : runFrom 40 st40 40 = st80 := by decide

theorem runFrom_80_120 : runFrom 80 st80 40 = st120 := by decide

theorem runFrom_120_160 : runFrom 120 st120 40 = st160 := by decide

theorem runFrom_160_200 : runFrom 160 st160 40 = st200 := by decide

theorem stateAfter_200 : stateAfter 200 = st200 := by
  show runFrom 0 initSt 200 = st200
  have h : (200 : Nat) = 40 + (40 + (40 + (40 + 40))) := by norm_num
  rw [h, runFrom_add, runFrom_0_40, runFrom_add, runFrom_40_80, runFrom_add,
    runFrom_80_120, runFrom_add, runFrom_120_160]
  exact runFrom_160_200

theorem stateAfter_72 : stateAfter 72 = st40 := by
  show runFrom 0 initSt 72 = st40
  have h : (72 : Nat) = 40 + 32 := by norm_num
  rw [h, runFrom_add, runFrom_0_40]
  decide

/-- C2 (amended): operating the modelled memory controller on the test 701 request
stream marks the requests scheduled in exactly the order
`{3, 2, 6, 9, 12, 15, 19, 4, 0, 7, 10, 13, 16, 20, 1, 5, 8, 11, 14, 17, 18}`. -/
theorem dram_schedule_order :
    (stateAfter 200).order
      = [3, 2, 6, 9, 12, 15, 19, 4, 0, 7, 10, 13, 16, 20, 1, 5, 8, 11, 14, 17, 18] := by
  rw [stateAfter_200]
  rfl

/-- C2 counterexample to the row-hit gloss: at cycle 72 bank 1 is idle with open row
1; request 5 (arrival 5) targets that open row while the older request 4 (arrival 1)
targets the closed row 0, yet the scheduler selects request 4, and request 5 is
scheduled later in the final order — a later request targeting an already-open row is
not scheduled ahead of an older request targeting a closed row. -/
theorem dram_no_row_hit_priority :
    (bankAt (stateAfter 72) 1).openRow = some (row 5) ∧
    (bankAt (stateAfter 72) 1).busyUntil ≤ 72 ∧
    bnk 4 = 1 ∧ bnk 5 = 1 ∧ row 4 ≠ row 5 ∧ arr 4 < arr 5 ∧
    eligible (stateAfter 72) 72 4 = true ∧
    eligible (stateAfter 72) 72 5 = true ∧
    pick (stateAfter 72) 72 = some 4 ∧
    (stateAfter 200).order.indexOf 4 < (stateAfter 200).order.indexOf 5 := by
  rw [stateAfter_72, stateAfter_200]
  decide

/-! ## Page-table walker (src/test/602-asid-isolation.cc)

Modelled from the spec: `ptw.h` and `vmem.h` are not under src/ (only test 602 is).
Section 4.5 of the spec: on a `TRANSLATION` packet the walker issues `num_levels`
sequential downstream reads, one per page-table level, each next read issued when the
previous response returns; walks for distinct `(asid, vpn)` pairs never share table
entries and proceed concurrently.  The testbench's downstream mock answers every read
after 5 cycles, and a response produced at cycle `t` is visible at `t + 1` (spec §5). -/

/-- Number of page-table levels in the 602 testbench. -/
def ptwLevels : Nat := 5

/-- Downstream latency of the testbench's `do_nothing_MRC` mock. -/
def ptwRespLatency : Nat := 5

/-- The virtual page number of an address (`LOG2_PAGE_SIZE = 12`). -/
def vpn (a : Nat) : Nat := a / 2 ^ 12

/-- The cycles at which one walk starting at cycle `s` issues its downstream reads:
one read per remaining level, the next read one visibility cycle after the previous
response. -/
def walkReadCycles : Nat → Nat → List Nat
  | 0, _ => []
  | l + 1, s => s :: walkReadCycles l (s + ptwRespLatency + 1)

/-- The cycle at which a walk starting at cycle `s` completes (after its last
response returns). -/
def walkReturn (s : Nat) : Nat := s + ptwLevels * (ptwRespLatency + 1)

/-- The walks started for a request stream `(issue cycle, asid, address)`: one walk
per distinct `(asid, vpn)` key, in issue order. -/
def ptwWalks (reqs : List (Nat × Nat × Nat)) : List (Nat × Nat × Nat) :=
  reqs.foldl
    (fun acc r =>
      if acc.any (fun w => w.2.1 = r.2.1 ∧ w.2.2 = vpn r.2.2) then acc
      else acc ++ [(r.1, r.2.1, vpn r.2.2)])
    []

/-- Total number of downstream reads issued for a request stream. -/
def ptwDownstreamReads (reqs : List (Nat × Nat × Nat)) : Nat :=
  ((ptwWalks reqs).map (fun w => (walkReadCycles ptwLevels w.1).length)).sum

/-- The completion cycles of the walks of a request stream, in issue order. -/
def ptwReturnTimes (reqs : List (Nat × Nat × Nat)) : List Nat :=
  (ptwWalks reqs).map (fun w => walkReturn w.1)

/-- The 602 request stream: two TRANSLATION packets for the same virtual address
`0xdeadbeefdeadbeef` with asids 0 and 1, the second issued `gap` cycles later. -/
def asidTestStream (gap : Nat) : List (Nat × Nat × Nat) :=
  [(0, 0, 0xdeadbeefdeadbeef), (gap, 1, 0xdeadbeefdeadbeef)]

/-- C5: with a 5-level virtual memory, two TRANSLATION packets with the same virtual
address `0xdeadbeefdeadbeef` but asids 0 and 1 — issued 10000 cycles apart or in the
same cycle — cause exactly 10 downstream reads (5 per walk, one per level), and both
walks complete (the second requester observes a positive return time). -/
theorem ptw_two_asid_walks :
    ptwDownstreamReads (asidTestStream 10000) = 2 * ptwLevels ∧
    ptwDownstreamReads (asidTestStream 0) = 2 * ptwLevels ∧
    2 * ptwLevels = 10 ∧
    (ptwReturnTimes (asidTestStream 10000)).getLast? = some 10030 ∧
    (ptwReturnTimes (asidTestStream 0)).getLast? = some 30 ∧
    0 < 10030 ∧ 0 < 30 := by
  decide

end ChampSimProof
